import Mathlib

/-!
Verification development for the 5×5 grid redistricting system.

The repository ships the browser client (`static/js/app.js`); the analysis
engine behind the `/api/*` endpoints (GridGeometry, PlanValidator,
OutcomeScorer, PlanAligner, ConsensusBuilder, RankingEngine) is served by a
backend whose source is not in the repository.  Definitions for those
components are therefore modelled from the specification, as marked in their
doc comments; definitions for the client state machine are translated from
`static/js/app.js`.
-/

open List

/-- A cell of the fixed 5×5 grid, identified by (row, column). -/
abbrev Cell := Fin 5 × Fin 5

/-- Wire-format district assignment: each cell holds an integer label.  The
client (`app.js` line 3) uses `-1` as the unassigned sentinel; a complete plan
has every label in `[0, 5)`. -/
abbrev Assignment := Fin 5 → Fin 5 → ℤ

/-- The two factions of the fixed vote grid.  `app.js` renders a cell as
Hearts when `voteGrid[i][j] === 1` and as Clubs otherwise. -/
inductive Faction where
  | Hearts
  | Clubs
deriving DecidableEq, Repr

/-- The fixed 5×5 vote grid: one faction per cell. -/
abbrev VoteGrid := Fin 5 → Fin 5 → Faction

/-- All 25 cells in row-major order. -/
def allCells : List Cell :=
  (List.finRange 5).flatMap fun i => (List.finRange 5).map fun j => (i, j)

/-- Modelled from the spec: a label is in the legal range `[0, D)` with `D = 5`
(§3 DistrictAssignment).  The client sentinel `-1` is outside this range. -/
def inRange (z : ℤ) : Bool := decide (0 ≤ z ∧ z < 5)

/-- Modelled from the spec: 4-adjacency of two grid cells (GridGeometry §4.1,
up/down/left/right neighbours within bounds). -/
def adjacent (c d : Cell) : Bool :=
  decide ((c.1 = d.1 ∧ ((c.2 : ℕ) + 1 = (d.2 : ℕ) ∨ (d.2 : ℕ) + 1 = (c.2 : ℕ))) ∨
    (c.2 = d.2 ∧ ((c.1 : ℕ) + 1 = (d.1 : ℕ) ∨ (d.1 : ℕ) + 1 = (c.1 : ℕ))))

/-- The cells carrying district label `k`, in row-major order. -/
def districtCells (a : Assignment) (k : Fin 5) : List Cell :=
  allCells.filter fun c => decide (a c.1 c.2 = (k : ℤ))

/-- A structured validation error; the HTTP layer renders these as the
human-readable strings of §4.2 ("unassigned cell …", population imbalance,
non-contiguous district). -/
inductive ValidationError where
  | unassigned (row col : Fin 5)
  | imbalance (district : Fin 5) (count : ℕ)
  | discontiguous (district : Fin 5) (disconnected : ℕ)
deriving DecidableEq, Repr

/-- Modelled from the spec: Completeness check (§4.2 check 1) — one error per
cell whose label is outside `[0, D)`, listing the cell's coordinates, in
row-major order. -/
def completenessErrors (a : Assignment) : List ValidationError :=
  (allCells.filter fun c => !inRange (a c.1 c.2)).map fun c =>
    ValidationError.unassigned c.1 c.2

/-- Modelled from the spec: Population balance check (§4.2 check 2) — with a
5×5 grid and `D = 5` districts, `25 / 5 = 5` divides evenly, so every
district's cell count must equal exactly 5; offending districts are reported
in ascending district order with their counts. -/
def balanceErrors (a : Assignment) : List ValidationError :=
  (List.finRange 5).filterMap fun k =>
    if (districtCells a k).length = 5 then none
    else some (ValidationError.imbalance k (districtCells a k).length)

/-- Modelled from the spec: breadth-first reachability closure (§4.2 check 3).
Starting from `visited`, repeatedly adds every cell of `cells` adjacent to an
already-visited cell; the fuel bounds the number of expansion rounds (25 ≥
number of cells suffices to reach a fixed point). -/
def reach (cells : List Cell) : ℕ → List Cell → List Cell
  | 0, visited => visited
  | fuel + 1, visited =>
    let frontier := cells.filter fun c =>
      !visited.contains c && visited.any fun v => adjacent c v
    if frontier.isEmpty then visited else reach cells fuel (visited ++ frontier)

/-- Modelled from the spec: the number of same-labelled cells NOT reached by
the breadth-first traversal from the district's first cell (§4.2 check 3);
zero for the empty cell set and exactly when the district is 4-connected. -/
def disconnectedCount (cells : List Cell) : ℕ :=
  match cells with
  | [] => 0
  | c :: _ => (cells.filter fun d => !(reach cells 25 [c]).contains d).length

/-- Modelled from the spec: the contiguity check for one district (§4.2 check
3) — breadth-first traversal from one cell of the label; if some same-labelled
cells are unreached, reports the district and the disconnected cell count. -/
def contiguityError (k : Fin 5) (cells : List Cell) : Option ValidationError :=
  if disconnectedCount cells = 0 then none
  else some (ValidationError.discontiguous k (disconnectedCount cells))

/-- Modelled from the spec: the contiguity errors of all districts, in
ascending district order (§4.2 check 3). -/
def contiguityErrors (a : Assignment) : List ValidationError :=
  (List.finRange 5).filterMap fun k => contiguityError k (districtCells a k)

/-- Result of `validate`: a validity flag plus the ordered error list. -/
structure ValidationResult where
  valid : Bool
  errors : List ValidationError
deriving DecidableEq, Repr

/-- Modelled from the spec: PlanValidator (§4.2) — evaluates all three checks,
accumulating errors (never short-circuiting, never throwing), ordered by check
type then ascending district id; the plan is valid iff no error was found. -/
def validate (a : Assignment) : ValidationResult :=
  let errs := completenessErrors a ++ balanceErrors a ++ contiguityErrors a
  ⟨errs.isEmpty, errs⟩

/-- Modelled from the spec: number of Hearts votes inside district `k`. -/
def heartsVotes (v : VoteGrid) (a : Assignment) (k : Fin 5) : ℕ :=
  ((districtCells a k).filter fun c => decide (v c.1 c.2 = Faction.Hearts)).length

/-- Modelled from the spec: per-district winner (§4.3) — the majority faction
of the district's cells; the even-size tie (impossible for valid plans, whose
districts have 5 cells) is resolved in favour of Hearts as the fixed
tie-break policy. -/
def districtWinner (v : VoteGrid) (a : Assignment) (k : Fin 5) : Faction :=
  if (districtCells a k).length ≤ 2 * heartsVotes v a k then Faction.Hearts
  else Faction.Clubs

/-- Modelled from the spec: the per-district winners, districts in ascending
order. -/
def winners (v : VoteGrid) (a : Assignment) : List Faction :=
  (List.finRange 5).map fun k => districtWinner v a k

/-- Modelled from the spec: number of districts won by Hearts (`hearts_won`). -/
def heartsWon (v : VoteGrid) (a : Assignment) : ℕ :=
  (winners v a).countP fun w => decide (w = Faction.Hearts)

/-- Modelled from the spec: number of districts won by Clubs (`clubs_won`). -/
def clubsWon (v : VoteGrid) (a : Assignment) : ℕ :=
  (winners v a).countP fun w => decide (w = Faction.Clubs)

/-- All 40 internal edges of the 5×5 grid: 20 horizontal pairs and 20 vertical
pairs of 4-adjacent cells. -/
def gridEdges : List (Cell × Cell) :=
  ((List.finRange 5).flatMap fun i => (List.finRange 4).map fun j =>
    (((i, j.castSucc) : Cell), ((i, j.succ) : Cell))) ++
  ((List.finRange 4).flatMap fun i => (List.finRange 5).map fun j =>
    (((i.castSucc, j) : Cell), ((i.succ, j) : Cell)))

/-- Modelled from the spec: cut-edge count (§4.3, Glossary) — the number of
grid edges whose two endpoint cells belong to different districts. -/
def cutEdges (a : Assignment) : ℕ :=
  (gridEdges.filter fun e => decide (a e.1.1 e.1.2 ≠ a e.2.1 e.2.2)).length

/-- A grid cell with integer coordinates, used by GridGeometry so that
off-grid neighbours are representable. -/
def cellZ (c : Cell) : ℤ × ℤ := ((c.1 : ℤ), (c.2 : ℤ))

/-- The cell set of district `k` as a finite set of integer-coordinate cells. -/
def districtFinset (a : Assignment) (k : Fin 5) : Finset (ℤ × ℤ) :=
  ((districtCells a k).map cellZ).toFinset

/-- Modelled from the spec: GridGeometry area (§4.1) — the number of cells of
the set. -/
def area (s : Finset (ℤ × ℤ)) : ℕ := s.card

/-- Modelled from the spec: GridGeometry perimeter (§4.1) — the number of
cell-edges belonging to exactly one cell of the set.  Each such edge is
counted as a (cell, direction) pair whose neighbour in that direction lies
outside the set (off the grid or in an outside cell); an edge shared by two
set cells is exposed on neither side and counts zero. -/
def perim (s : Finset (ℤ × ℤ)) : ℕ :=
  (s.filter fun c => (c.1 + 1, c.2) ∉ s).card +
  (s.filter fun c => (c.1 - 1, c.2) ∉ s).card +
  (s.filter fun c => (c.1, c.2 + 1) ∉ s).card +
  (s.filter fun c => (c.1, c.2 - 1) ∉ s).card

/-- Modelled from the spec: the Polsby-Popper compactness score of a cell set,
`4π·Area / Perimeter²` (§4.3, Glossary). -/
noncomputable def polsbyPopper (s : Finset (ℤ × ℤ)) : ℝ :=
  4 * Real.pi * (area s : ℝ) / ((perim s : ℝ)) ^ 2

/-- Modelled from the spec: Polsby-Popper score of district `k` of a plan. -/
noncomputable def perDistrictCompactness (a : Assignment) (k : Fin 5) : ℝ :=
  polsbyPopper (districtFinset a k)

/-- Modelled from the spec: average compactness — the arithmetic mean of the
per-district Polsby-Popper scores (§4.3). -/
noncomputable def averageCompactness (a : Assignment) : ℝ :=
  (∑ k : Fin 5, perDistrictCompactness a k) / 5

/-- Modelled from the spec: OutcomeMetrics (§3) — winners, faction win
totals, cut edges and compactness figures of one plan. -/
structure OutcomeMetrics where
  perDistrictWinner : List Faction
  heartsTotal : ℕ
  clubsTotal : ℕ
  cut : ℕ
  compactness : List ℝ
  avgCompactness : ℝ

/-- Modelled from the spec: OutcomeScorer (§4.3) — a pure function of the
assignment and the fixed VoteGrid producing the plan's OutcomeMetrics. -/
noncomputable def scoreOutcome (v : VoteGrid) (a : Assignment) : OutcomeMetrics where
  perDistrictWinner := winners v a
  heartsTotal := heartsWon v a
  clubsTotal := clubsWon v a
  cut := cutEdges a
  compactness := (List.finRange 5).map fun k => perDistrictCompactness a k
  avgCompactness := averageCompactness a

/-- The §8 concrete-scenario vote grid: rows 0–1 entirely Hearts (faction A),
rows 2–4 entirely Clubs (faction B). -/
def scenarioVotes : VoteGrid := fun i _ =>
  if (i : ℕ) < 2 then Faction.Hearts else Faction.Clubs

/-- The §8 concrete-scenario plan: district `k` is row `k`. -/
def rowPlan : Assignment := fun i _ => (i : ℤ)

/-- A stored (validated) plan's assignment grid: every label is in `[0, 5)`.
Stored plans passed validation, so the server's aligner and consensus builder
only ever see complete assignments. -/
abbrev PlanGrid := Fin 5 → Fin 5 → Fin 5

/-- Modelled from the spec: PlanAligner overlap (§4.4) — the number of cells
lying both in district `i` of `p` and district `j` of `q` (the cell-count
intersection behind the cost matrix `cost[i][j] = -overlap(i, j)`). -/
def overlap (p q : PlanGrid) (i j : Fin 5) : ℕ :=
  (allCells.filter fun c => decide (p c.1 c.2 = i ∧ q c.1 c.2 = j)).length

/-- A candidate perfect matching, written as a list `l` of 5 labels: district
`j` of the aligned plan is matched to district `l[j]` of the reference.  The
identity matching is `List.finRange 5 = [0, 1, 2, 3, 4]`. -/
def applyMatch (l : List (Fin 5)) (j : Fin 5) : Fin 5 := l.getD j 0

/-- All `5! = 120` perfect matchings of the two label sets, enumerated as the
permutations of `[0, 1, 2, 3, 4]`. -/
def permCandidates : List (List (Fin 5)) := (List.finRange 5).permutations

/-- Modelled from the spec: total cost of one candidate matching (§4.4).  The
matching assigns to each district `j` of `q` the district `l[j]` of the
reference `p`; its cost is the sum of the matrix entries
`cost[l[j]][j] = -overlap(l[j], j)`, so minimising the cost maximises the
total overlap. -/
def alignCost (p q : PlanGrid) (l : List (Fin 5)) : ℤ :=
  -∑ j : Fin 5, (overlap p q (applyMatch l j) j : ℤ)

/-- Modelled from the spec: PlanAligner (§4.4) — an exact solution of the
assignment problem.  With `D = 5` there are only `5! = 120` perfect matchings,
so the minimum-cost matching is found by exhaustive scan (exact, as the spec
demands, not a greedy heuristic); ties keep the earliest candidate examined,
starting from the identity matching. -/
def bestAlignment (p q : PlanGrid) : List (Fin 5) :=
  permCandidates.foldl
    (fun best l => if alignCost p q l < alignCost p q best then l else best)
    (List.finRange 5)

/-- Modelled from the spec: relabelling a plan under a matching (§4.4) — each
cell's label `ℓ` is replaced by the canonical label `l[ℓ]`. -/
def relabelPlan (l : List (Fin 5)) (q : PlanGrid) : PlanGrid :=
  fun i j => applyMatch l (q i j)

/-- Number of cells (out of 25) on which two plans agree. -/
def agreementCount (p q : PlanGrid) : ℕ :=
  (allCells.filter fun c => decide (p c.1 c.2 = q c.1 c.2)).length

/-- Plan category, from the two-valued `type` field (`app.js` renders
`'neutral'` as Neutral and anything else as Hearts Rep). -/
inductive Category where
  | neutral
  | hearts
deriving DecidableEq, Repr

/-- A stored plan as seen by the consensus builder: its validated grid and
its category. -/
structure StoredPlan where
  grid : PlanGrid
  category : Category
deriving DecidableEq

/-- Modelled from the spec: the category filter of a consensus request (§4.5)
— `none` selects all plans, `some c` selects plans of category `c`. -/
def matchesFilter : Option Category → StoredPlan → Bool
  | none, _ => true
  | some c, p => decide (p.category = c)

/-- Modelled from the spec: ConsensusResult (§3, §4.5) — the number of
contributing plans and the canonical (modal) grid, absent when no plan
contributed. -/
structure ConsensusResult where
  contributingPlanCount : ℕ
  canonical : Option PlanGrid
deriving DecidableEq

/-- Modelled from the spec: the modal label of one cell (§4.5) — the most
frequent canonical district label among the contributing plans, ties broken
by the lowest label id (the fold switches only on a strictly larger count,
so the lowest label of a tie is kept). -/
def modalLabel (plans : List PlanGrid) (i j : Fin 5) : Fin 5 :=
  (List.finRange 5).foldl
    (fun best k =>
      if plans.countP (fun g => decide (g i j = best)) <
          plans.countP (fun g => decide (g i j = k)) then k else best)
    0

/-- Modelled from the spec: alignment of a plan set to its first plan as
reference (§4.4), yielding relabelled assignments in one shared label space. -/
def alignAll (plans : List StoredPlan) : List PlanGrid :=
  match plans with
  | [] => []
  | r :: _ => plans.map fun p => relabelPlan (bestAlignment r.grid p.grid) p.grid

/-- Modelled from the spec: ConsensusBuilder (§4.5) — filters the store by
category, aligns the matching plans, and takes the per-cell modal label; an
empty category yields the normal result `contributingPlanCount = 0` with no
canonical grid, never an error. -/
def consensus (store : List StoredPlan) (filt : Option Category) : ConsensusResult :=
  let matching := store.filter (matchesFilter filt)
  if matching.isEmpty then ⟨0, none⟩
  else ⟨matching.length, some fun i j => modalLabel (alignAll matching) i j⟩

/-- Modelled from the spec: a leaderboard record (§4.6, `/api/rankings`) —
submission id plus the metrics stored once at submission time
(`avg_pp` as an exact rational, `cut_edges`); ranking never recomputes them. -/
structure RankedPlan where
  id : ℕ
  avgPP : ℚ
  cut : ℕ
deriving DecidableEq, Repr

/-- Modelled from the spec: the ranking order (§4.6) — `p` ranks at or before
`q` when `p` has strictly larger stored average compactness, or equal average
compactness and at most as many cut edges. -/
def rankLE (p q : RankedPlan) : Prop :=
  q.avgPP < p.avgPP ∨ (p.avgPP = q.avgPP ∧ p.cut ≤ q.cut)

instance : DecidableRel rankLE := fun p q => by
  unfold rankLE; infer_instance

instance : IsTotal RankedPlan rankLE where
  total p q := by
    rcases lt_trichotomy p.avgPP q.avgPP with h | h | h
    · exact Or.inr (Or.inl h)
    · rcases Nat.le_total p.cut q.cut with hc | hc
      · exact Or.inl (Or.inr ⟨h, hc⟩)
      · exact Or.inr (Or.inr ⟨h.symm, hc⟩)
    · exact Or.inl (Or.inl h)

instance : IsTrans RankedPlan rankLE where
  trans p q s hpq hqs := by
    rcases hpq with h1 | ⟨h1, h1c⟩ <;> rcases hqs with h2 | ⟨h2, h2c⟩
    · exact Or.inl (h2.trans h1)
    · exact Or.inl (h2 ▸ h1)
    · exact Or.inl (h1 ▸ h2)
    · exact Or.inr ⟨h1.trans h2, h1c.trans h2c⟩

/-- Modelled from the spec: RankingEngine (§4.6) — a pure stable sort of the
stored plans, descending by stored average compactness with ascending cut
edges as tie-break; exact ties keep submission order (insertion sort is
stable). -/
def rankPlans (plans : List RankedPlan) : List RankedPlan :=
  List.insertionSort rankLE plans

/-- The client editor state of `app.js`: the working district grid, the
selected district button, the `isValid` flag and the submit button's disabled
flag (lines 3–5 and the DOM state the handlers toggle). -/
structure ClientState where
  districts : Fin 5 → Fin 5 → ℤ
  currentDistrict : ℤ
  isValid : Bool
  submitDisabled : Bool

/-- Initial client state (`app.js` lines 3–5): a 5×5 grid of the sentinel
`-1`, district 0 selected, not validated; the submit button starts disabled
in the page markup. -/
def initState : ClientState := ⟨fun _ _ => -1, 0, false, true⟩

/-- `handleCellClick` (`app.js` lines 55–66): paints the clicked cell with the
selected district, then clears the validation state — `isValid = false` and
the submit button disabled. -/
def handleCellClick (s : ClientState) (row col : Fin 5) : ClientState :=
  ⟨fun i j => if i = row ∧ j = col then s.currentDistrict else s.districts i j,
    s.currentDistrict, false, true⟩

/-- The clear-button handler (`app.js` lines 78–90): resets every cell of the
district grid to the sentinel `-1`, sets `isValid = false` and disables the
submit button. -/
def clearDistricts (s : ClientState) : ClientState :=
  ⟨fun _ _ => -1, s.currentDistrict, false, true⟩

/-- The validate-button response handling (`app.js` lines 106–121): on a
valid response `isValid = true` and submit is enabled; on an invalid response
`isValid = false` and submit is disabled. -/
def applyValidateResponse (s : ClientState) (valid : Bool) : ClientState :=
  ⟨s.districts, s.currentDistrict, valid, !valid⟩

/-- The submit-button handler (`app.js` lines 156–160): if `isValid` is false
it returns early (no fetch is issued); otherwise it POSTs the current district
grid to `/api/submit`. -/
def submitRequest (s : ClientState) : Option (Fin 5 → Fin 5 → ℤ) :=
  if s.isValid then some s.districts else none

/-- A bijective permutation of the label set `[0, 5)` acting on wire-format
labels: an in-range label `z` is replaced by `σ z`; anything else (such as the
sentinel `-1`) is left unchanged. -/
def applyPerm (σ : Equiv.Perm (Fin 5)) (z : ℤ) : ℤ :=
  if h : 0 ≤ z ∧ z < 5 then ((σ ⟨z.toNat, by omega⟩ : Fin 5) : ℤ) else z

/-- Relabelling of a district assignment by a bijective permutation of the
labels `[0, 5)`: each cell's label `k` becomes `σ k`. -/
def relabelAssignment (σ : Equiv.Perm (Fin 5)) (a : Assignment) : Assignment :=
  fun i j => applyPerm σ (a i j)

/-- The fully unassigned wire grid: every cell holds the sentinel `-1`. -/
def emptyAssignment : Assignment := fun _ _ => -1

/-- A concrete leaderboard record used as a witness input. -/
def demoPlanA : RankedPlan := ⟨0, 1 / 2, 4⟩

/-- A second concrete leaderboard record with the same metrics as
`demoPlanA` but a later submission id. -/
def demoPlanB : RankedPlan := ⟨1, 1 / 2, 4⟩

/-- Helper: the Polsby-Popper score of any 5-cell set with perimeter 12 (such
as one full grid row) equals `4π·5/(2·(5+1))²`. -/
theorem polsbyPopper_of_row (s : Finset (ℤ × ℤ)) (ha : area s = 5)
    (hp : perim s = 12) : polsbyPopper s = 4 * Real.pi * 5 / (2 * (5 + 1)) ^ 2 := by
  rw [polsbyPopper, ha, hp]
  norm_num

/-- C1 (counterexample): in the §8 concrete scenario the cut-edge count — grid
edges whose two endpoint cells belong to different districts — is 20, not 4 as
the claim states: each of the 4 adjacent row-district pairs shares 5 vertical
grid edges. -/
theorem C1_cutEdges_counterexample : cutEdges rowPlan = 20 ∧ cutEdges rowPlan ≠ 4 := by
  decide

/-- C1 (amended): in the §8 concrete scenario — votes with rows 0–1 Hearts and
rows 2–4 Clubs, plan assigning district k = row k — the validator accepts the
plan, the winners are [Hearts, Hearts, Clubs, Clubs, Clubs] with 2 districts
for Hearts and 3 for Clubs, the cut-edge count is 20 (not 4), and every
district's Polsby-Popper compactness equals 4π·5/(2·(5+1))² ≈ 0.436. -/
theorem C1_scenario :
    (validate rowPlan).valid = true ∧
    winners scenarioVotes rowPlan =
      [Faction.Hearts, Faction.Hearts, Faction.Clubs, Faction.Clubs, Faction.Clubs] ∧
    heartsWon scenarioVotes rowPlan = 2 ∧
    clubsWon scenarioVotes rowPlan = 3 ∧
    cutEdges rowPlan = 20 ∧
    (∀ k : Fin 5,
      perDistrictCompactness rowPlan k = 4 * Real.pi * 5 / (2 * (5 + 1)) ^ 2) := by
  refine ⟨by decide, by decide, by decide, by decide, by decide, ?_⟩
  intro k
  have ha : area (districtFinset rowPlan k) = 5 := by fin_cases k <;> decide
  have hp : perim (districtFinset rowPlan k) = 12 := by fin_cases k <;> decide
  exact polsbyPopper_of_row _ ha hp

/-- C3: OutcomeScorer is a deterministic pure function of the assignment and
the fixed VoteGrid — two invocations on the same valid assignment produce
identical OutcomeMetrics (winners, win totals, cut edges, per-district and
average compactness). -/
theorem C3_scorer_deterministic (v : VoteGrid) (a : Assignment)
    (hvalid : (validate a).valid = true) : scoreOutcome v a = scoreOutcome v a :=
  rfl

/-- C3 witness: the scorer applied twice to the valid §8 row plan. -/
theorem C3_scorer_deterministic_witness :
    (validate rowPlan).valid = true ∧
    scoreOutcome scenarioVotes rowPlan = scoreOutcome scenarioVotes rowPlan :=
  ⟨by decide, C3_scorer_deterministic scenarioVotes rowPlan (by decide)⟩

/-- C6: a category filter matching zero stored plans yields a normal
consensus result with `contributingPlanCount = 0` and an absent canonical
grid — never an error. -/
theorem C6_empty_category (store : List StoredPlan) (filt : Option Category)
    (h : store.filter (matchesFilter filt) = []) :
    (consensus store filt).contributingPlanCount = 0 ∧
      (consensus store filt).canonical = none := by
  simp [consensus, h]

/-- C6 witness: a store holding one neutral plan, queried for the hearts
category. -/
theorem C6_empty_category_witness :
    (consensus [⟨fun _ _ => 0, Category.neutral⟩] (some Category.hearts)).contributingPlanCount = 0 ∧
      (consensus [⟨fun _ _ => 0, Category.neutral⟩] (some Category.hearts)).canonical = none :=
  C6_empty_category [⟨fun _ _ => 0, Category.neutral⟩] (some Category.hearts) rfl

/-- C9: the client issues a submit request only for a validated, unedited
plan — every cell edit and every clear resets `isValid` to false and disables
the submit button, and a submit click with `isValid` false issues no request. -/
theorem C9_submit_guard (s : ClientState) (row col : Fin 5) :
    (handleCellClick s row col).isValid = false ∧
    (handleCellClick s row col).submitDisabled = true ∧
    (clearDistricts s).isValid = false ∧
    (clearDistricts s).submitDisabled = true ∧
    (s.isValid = false → submitRequest s = none) := by
  refine ⟨rfl, rfl, rfl, rfl, fun h => ?_⟩
  simp [submitRequest, h]

/-- C9 witness: the guard at the initial client state and cell (0, 0). -/
theorem C9_submit_guard_witness :
    (handleCellClick initState 0 0).isValid = false ∧
    (handleCellClick initState 0 0).submitDisabled = true ∧
    (clearDistricts initState).isValid = false ∧
    (clearDistricts initState).submitDisabled = true ∧
    submitRequest initState = none :=
  ⟨(C9_submit_guard initState 0 0).1, (C9_submit_guard initState 0 0).2.1,
    (C9_submit_guard initState 0 0).2.2.1, (C9_submit_guard initState 0 0).2.2.2.1,
    (C9_submit_guard initState 0 0).2.2.2.2 rfl⟩

/-- C10: the client's unassigned sentinel is `-1`, outside the legal label
range `[0, 5)` — the initial district grid and every cleared grid hold `-1`
in every cell, so no cell of such a grid carries a label in `[0, 5)`. -/
theorem C10_sentinel (s : ClientState) (row col : Fin 5) :
    initState.districts row col = -1 ∧
    (clearDistricts s).districts row col = -1 ∧
    inRange (initState.districts row col) = false ∧
    inRange ((clearDistricts s).districts row col) = false :=
  ⟨rfl, rfl, rfl, rfl⟩

/-- Helper: every cell of the grid appears in the row-major cell list. -/
theorem mem_allCells : ∀ c : Cell, c ∈ allCells := by decide

/-- C2: whenever at least one cell lacks a label in `[0, 5)`, `validate`
returns (it is a total function) with `valid = false`, and its error list
contains a Completeness error naming the coordinates of every unassigned
cell, not merely the first one found. -/
theorem C2_completeness (a : Assignment) (r₀ c₀ : Fin 5)
    (h₀ : inRange (a r₀ c₀) = false) :
    (validate a).valid = false ∧
    ∀ r c : Fin 5, inRange (a r c) = false →
      ValidationError.unassigned r c ∈ (validate a).errors := by
  have hmem : ∀ r c : Fin 5, inRange (a r c) = false →
      ValidationError.unassigned r c ∈ (validate a).errors := by
    intro r c h
    show ValidationError.unassigned r c ∈
      completenessErrors a ++ balanceErrors a ++ contiguityErrors a
    refine List.mem_append_left _ (List.mem_append_left _ ?_)
    refine List.mem_map.mpr ⟨(r, c), ?_, rfl⟩
    refine List.mem_filter.mpr ⟨mem_allCells (r, c), ?_⟩
    simp [h]
  refine ⟨?_, hmem⟩
  show (completenessErrors a ++ balanceErrors a ++ contiguityErrors a).isEmpty = false
  exact List.isEmpty_eq_false.mpr (List.ne_nil_of_mem (hmem r₀ c₀ h₀))

/-- C2 witness: the fully unassigned grid fails validation and its error list
names cell (2, 3) among the unassigned cells. -/
theorem C2_completeness_witness :
    (validate emptyAssignment).valid = false ∧
    ValidationError.unassigned 2 3 ∈ (validate emptyAssignment).errors :=
  ⟨(C2_completeness emptyAssignment 0 0 rfl).1,
    (C2_completeness emptyAssignment 0 0 rfl).2 2 3 rfl⟩

/-- C7: RankingEngine sorts the stored plans so that consecutive plans are in
descending stored average compactness with ascending cut edges breaking
average-compactness ties; the output is a permutation of the input (plans and
their stored metrics are reproduced, nothing recomputed); and any two plans
with equal metrics keep their original submission order (stability). -/
theorem C7_ranking (plans : List RankedPlan) :
    (rankPlans plans).Sorted rankLE ∧
    (rankPlans plans).Perm plans ∧
    (∀ a b : RankedPlan, rankLE a b → [a, b].Sublist plans →
      [a, b].Sublist (rankPlans plans)) := by
  refine ⟨List.sorted_insertionSort rankLE plans, List.perm_insertionSort rankLE plans, ?_⟩
  intro a b hab hsub
  exact List.pair_sublist_insertionSort hab hsub

/-- C7 witness: ranking two plans that tie on both metrics keeps their
submission order. -/
theorem C7_ranking_witness :
    (rankPlans [demoPlanA, demoPlanB]).Sorted rankLE ∧
    (rankPlans [demoPlanA, demoPlanB]).Perm [demoPlanA, demoPlanB] ∧
    [demoPlanA, demoPlanB].Sublist (rankPlans [demoPlanA, demoPlanB]) :=
  ⟨(C7_ranking [demoPlanA, demoPlanB]).1, (C7_ranking [demoPlanA, demoPlanB]).2.1,
    (C7_ranking [demoPlanA, demoPlanB]).2.2 demoPlanA demoPlanB
      (Or.inr ⟨rfl, Nat.le_refl 4⟩) (List.Sublist.refl _)⟩

/-- Helper: a fold that replaces its accumulator only on a strictly smaller
score keeps an accumulator of minimal score. -/
theorem foldl_best_keep {α : Type} (g : α → ℤ) (b : α) (l : List α)
    (h : ∀ x ∈ l, ¬ g x < g b) :
    l.foldl (fun best x => if g x < g best then x else best) b = b := by
  induction l with
  | nil => rfl
  | cons x xs ih =>
    simp only [List.foldl_cons]
    rw [if_neg (h x (List.mem_cons_self x xs))]
    exact ih fun y hy => h y (List.mem_cons_of_mem x hy)

/-- Helper: the identity matching list acts as the identity function. -/
theorem applyMatch_finRange : ∀ j : Fin 5, applyMatch (List.finRange 5) j = j := by
  decide

/-- Helper: within one plan, the overlap of districts `i` and `j` is at most
the size of district `j` (the diagonal overlap). -/
theorem overlap_le_diag (p : PlanGrid) (i j : Fin 5) :
    overlap p p i j ≤ overlap p p j j := by
  unfold overlap
  rw [← List.countP_eq_length_filter, ← List.countP_eq_length_filter]
  apply List.countP_mono_left
  intro c _ hc
  simp only [decide_eq_true_eq] at hc ⊢
  exact ⟨hc.2, hc.2⟩

/-- Helper: for a plan aligned to itself, the identity matching has minimal
cost among all candidate matchings. -/
theorem alignCost_id_le (p : PlanGrid) (l : List (Fin 5)) :
    alignCost p p (List.finRange 5) ≤ alignCost p p l := by
  unfold alignCost
  rw [neg_le_neg_iff]
  apply Finset.sum_le_sum
  intro j _
  rw [applyMatch_finRange j]
  exact_mod_cast overlap_le_diag p (applyMatch l j) j

/-- C8: aligning a plan to itself yields the identity permutation of
district labels, and the relabelled plan agrees with the reference on all 25
cells (100% per-cell agreement). -/
theorem C8_align_self (p : PlanGrid) :
    bestAlignment p p = List.finRange 5 ∧
    relabelPlan (bestAlignment p p) p = p ∧
    agreementCount (relabelPlan (bestAlignment p p) p) p = 25 := by
  have hbest : bestAlignment p p = List.finRange 5 := by
    unfold bestAlignment
    exact foldl_best_keep (alignCost p p) (List.finRange 5) permCandidates
      fun l _ => not_lt.mpr (alignCost_id_le p l)
  have hre : relabelPlan (bestAlignment p p) p = p := by
    rw [hbest]
    funext i j
    exact applyMatch_finRange (p i j)
  refine ⟨hbest, hre, ?_⟩
  rw [hre]
  unfold agreementCount
  rw [List.filter_eq_self.mpr fun c _ => by simp]
  decide

/-- Helper: a plan is valid exactly when all three checks produce no error. -/
theorem valid_iff (a : Assignment) :
    (validate a).valid = true ↔
      completenessErrors a = [] ∧ balanceErrors a = [] ∧ contiguityErrors a = [] := by
  show (completenessErrors a ++ balanceErrors a ++ contiguityErrors a).isEmpty = true ↔ _
  rw [List.isEmpty_iff, List.append_eq_nil, List.append_eq_nil, and_assoc]

/-- Helper: the Completeness check passes exactly when every cell's label is
in `[0, 5)`. -/
theorem completeness_empty_iff (a : Assignment) :
    completenessErrors a = [] ↔ ∀ r c : Fin 5, inRange (a r c) = true := by
  rw [completenessErrors, List.map_eq_nil_iff, List.filter_eq_nil_iff]
  constructor
  · intro h r c
    have := h (r, c) (mem_allCells (r, c))
    simpa using this
  · intro h c _
    simp [h c.1 c.2]

/-- Helper: the balance check passes exactly when every district has exactly
5 cells. -/
theorem balance_empty_iff (a : Assignment) :
    balanceErrors a = [] ↔ ∀ k : Fin 5, (districtCells a k).length = 5 := by
  rw [balanceErrors, List.filterMap_eq_nil_iff]
  constructor
  · intro h k
    have := h k (List.mem_finRange k)
    by_contra hk
    rw [if_neg hk] at this
    exact Option.some_ne_none _ this
  · intro h k _
    rw [if_pos (h k)]

/-- Helper: the contiguity check passes exactly when every district's cell
list passes the per-district traversal check. -/
theorem contiguity_empty_iff (a : Assignment) :
    contiguityErrors a = [] ↔
      ∀ k : Fin 5, contiguityError k (districtCells a k) = none := by
  rw [contiguityErrors, List.filterMap_eq_nil_iff]
  exact ⟨fun h k => h k (List.mem_finRange k), fun h k _ => h k⟩

/-- Helper: whether the contiguity check of one district reports an error
depends only on its cell list, not on the district id in the report. -/
theorem contiguityError_none_of (k k' : Fin 5) (cells : List Cell)
    (h : contiguityError k' cells = none) : contiguityError k cells = none := by
  rw [contiguityError] at h ⊢
  by_cases hd : disconnectedCount cells = 0
  · rw [if_pos hd]
  · rw [if_neg hd] at h
    exact absurd h (Option.some_ne_none _)

/-- Helper: permuting an in-range label yields an in-range label. -/
theorem applyPerm_inRange (σ : Equiv.Perm (Fin 5)) (z : ℤ)
    (h : inRange z = true) : inRange (applyPerm σ z) = true := by
  rw [inRange, decide_eq_true_eq] at h
  rw [applyPerm, dif_pos h, inRange, decide_eq_true_eq]
  have := (σ ⟨z.toNat, by omega⟩).isLt
  omega

/-- Helper: for an in-range label `z`, the permuted label equals `k` exactly
when `z` is the preimage label `σ.symm k`. -/
theorem applyPerm_eq_iff (σ : Equiv.Perm (Fin 5)) (z : ℤ)
    (hz : inRange z = true) (k : Fin 5) :
    applyPerm σ z = (k : ℤ) ↔ z = ((σ.symm k : Fin 5) : ℤ) := by
  rw [inRange, decide_eq_true_eq] at hz
  rw [applyPerm, dif_pos hz]
  constructor
  · intro he
    have hfin : σ ⟨z.toNat, by omega⟩ = k := by
      apply Fin.ext
      exact_mod_cast he
    have hsymm : σ.symm k = ⟨z.toNat, by omega⟩ := by
      rw [← hfin, Equiv.symm_apply_apply]
    have hval : (σ.symm k).val = z.toNat := by rw [hsymm]
    omega
  · intro he
    have hfin : (⟨z.toNat, by omega⟩ : Fin 5) = σ.symm k := by
      apply Fin.ext
      simp only []
      omega
    rw [hfin, Equiv.apply_symm_apply]

/-- Helper: relabelling permutes the district cell lists — district `k` of
the relabelled plan is district `σ.symm k` of the original, cell for cell. -/
theorem districtCells_relabel (σ : Equiv.Perm (Fin 5)) (a : Assignment)
    (hin : ∀ r c : Fin 5, inRange (a r c) = true) (k : Fin 5) :
    districtCells (relabelAssignment σ a) k = districtCells a (σ.symm k) := by
  rw [districtCells, districtCells]
  apply List.filter_congr
  intro c _
  rw [decide_eq_decide]
  exact applyPerm_eq_iff σ (a c.1 c.2) (hin c.1 c.2) k

/-- C4: validation is label-invariant — relabelling a plan that passes
validation by any bijective permutation of the labels `[0, 5)` yields a plan
that also passes validation. -/
theorem C4_label_invariant (a : Assignment) (σ : Equiv.Perm (Fin 5))
    (h : (validate a).valid = true) :
    (validate (relabelAssignment σ a)).valid = true := by
  rw [valid_iff] at h ⊢
  obtain ⟨hcomp, hbal, hcont⟩ := h
  have hin : ∀ r c : Fin 5, inRange (a r c) = true :=
    (completeness_empty_iff a).mp hcomp
  have hdc := districtCells_relabel σ a hin
  refine ⟨?_, ?_, ?_⟩
  · rw [completeness_empty_iff]
    intro r c
    exact applyPerm_inRange σ (a r c) (hin r c)
  · rw [balance_empty_iff] at hbal ⊢
    intro k
    rw [hdc k]
    exact hbal (σ.symm k)
  · rw [contiguity_empty_iff] at hcont ⊢
    intro k
    rw [hdc k]
    exact contiguityError_none_of k (σ.symm k) _ (hcont (σ.symm k))

/-- C4 witness: the valid §8 row plan stays valid after swapping labels 0
and 1. -/
theorem C4_label_invariant_witness :
    (validate (relabelAssignment (Equiv.swap 0 1) rowPlan)).valid = true :=
  C4_label_invariant rowPlan (Equiv.swap 0 1) (by decide)

/-- Helper: if every value of `f` on `s` is attained by an element of `s`
satisfying `p`, then `s` has at least as many `p`-elements as `f`-values. -/
theorem card_image_le_card_filter (s : Finset (ℤ × ℤ)) (f : ℤ × ℤ → ℤ)
    (p : ℤ × ℤ → Prop) [DecidablePred p]
    (h : ∀ b ∈ s.image f, ∃ a ∈ s, f a = b ∧ p a) :
    (s.image f).card ≤ (s.filter p).card := by
  apply Finset.card_le_card_of_surjOn f
  intro b hb
  rw [Finset.mem_coe] at hb
  obtain ⟨a, ha, hfa, hpa⟩ := h b hb
  exact ⟨a, Finset.mem_coe.mpr (Finset.mem_filter.mpr ⟨ha, hpa⟩), hfa⟩

/-- Helper: each occupied row exposes at least one right edge. -/
theorem rows_le_right (s : Finset (ℤ × ℤ)) :
    (s.image Prod.fst).card ≤ (s.filter fun c => (c.1, c.2 + 1) ∉ s).card := by
  apply card_image_le_card_filter
  intro i hi
  have hfib : (s.filter fun c => c.1 = i).Nonempty := by
    rw [Finset.mem_image] at hi
    obtain ⟨c, hc, hci⟩ := hi
    exact ⟨c, Finset.mem_filter.mpr ⟨hc, hci⟩⟩
  obtain ⟨c, hcmem, hcmax⟩ := Finset.exists_max_image _ Prod.snd hfib
  rw [Finset.mem_filter] at hcmem
  refine ⟨c, hcmem.1, hcmem.2, ?_⟩
  intro habs
  have hin : (c.1, c.2 + 1) ∈ s.filter fun c => c.1 = i :=
    Finset.mem_filter.mpr ⟨habs, hcmem.2⟩
  have := hcmax _ hin
  simp only [] at this
  omega

/-- Helper: each occupied row exposes at least one left edge. -/
theorem rows_le_left (s : Finset (ℤ × ℤ)) :
    (s.image Prod.fst).card ≤ (s.filter fun c => (c.1, c.2 - 1) ∉ s).card := by
  apply card_image_le_card_filter
  intro i hi
  have hfib : (s.filter fun c => c.1 = i).Nonempty := by
    rw [Finset.mem_image] at hi
    obtain ⟨c, hc, hci⟩ := hi
    exact ⟨c, Finset.mem_filter.mpr ⟨hc, hci⟩⟩
  obtain ⟨c, hcmem, hcmin⟩ := Finset.exists_min_image _ Prod.snd hfib
  rw [Finset.mem_filter] at hcmem
  refine ⟨c, hcmem.1, hcmem.2, ?_⟩
  intro habs
  have hin : (c.1, c.2 - 1) ∈ s.filter fun c => c.1 = i :=
    Finset.mem_filter.mpr ⟨habs, hcmem.2⟩
  have := hcmin _ hin
  simp only [] at this
  omega

/-- Helper: each occupied column exposes at least one bottom edge. -/
theorem cols_le_down (s : Finset (ℤ × ℤ)) :
    (s.image Prod.snd).card ≤ (s.filter fun c => (c.1 + 1, c.2) ∉ s).card := by
  apply card_image_le_card_filter
  intro j hj
  have hfib : (s.filter fun c => c.2 = j).Nonempty := by
    rw [Finset.mem_image] at hj
    obtain ⟨c, hc, hcj⟩ := hj
    exact ⟨c, Finset.mem_filter.mpr ⟨hc, hcj⟩⟩
  obtain ⟨c, hcmem, hcmax⟩ := Finset.exists_max_image _ Prod.fst hfib
  rw [Finset.mem_filter] at hcmem
  refine ⟨c, hcmem.1, hcmem.2, ?_⟩
  intro habs
  have hin : (c.1 + 1, c.2) ∈ s.filter fun c => c.2 = j :=
    Finset.mem_filter.mpr ⟨habs, hcmem.2⟩
  have := hcmax _ hin
  simp only [] at this
  omega

/-- Helper: each occupied column exposes at least one top edge. -/
theorem cols_le_up (s : Finset (ℤ × ℤ)) :
    (s.image Prod.snd).card ≤ (s.filter fun c => (c.1 - 1, c.2) ∉ s).card := by
  apply card_image_le_card_filter
  intro j hj
  have hfib : (s.filter fun c => c.2 = j).Nonempty := by
    rw [Finset.mem_image] at hj
    obtain ⟨c, hc, hcj⟩ := hj
    exact ⟨c, Finset.mem_filter.mpr ⟨hc, hcj⟩⟩
  obtain ⟨c, hcmem, hcmin⟩ := Finset.exists_min_image _ Prod.fst hfib
  rw [Finset.mem_filter] at hcmem
  refine ⟨c, hcmem.1, hcmem.2, ?_⟩
  intro habs
  have hin : (c.1 - 1, c.2) ∈ s.filter fun c => c.2 = j :=
    Finset.mem_filter.mpr ⟨habs, hcmem.2⟩
  have := hcmin _ hin
  simp only [] at this
  omega

/-- Helper: the perimeter is at least twice the number of occupied rows plus
twice the number of occupied columns. -/
theorem perim_ge_rows_cols (s : Finset (ℤ × ℤ)) :
    2 * (s.image Prod.fst).card + 2 * (s.image Prod.snd).card ≤ perim s := by
  have h1 := rows_le_right s
  have h2 := rows_le_left s
  have h3 := cols_le_down s
  have h4 := cols_le_up s
  rw [perim]
  omega

/-- Helper: the area is at most the number of occupied rows times the number
of occupied columns. -/
theorem area_le_rows_mul_cols (s : Finset (ℤ × ℤ)) :
    area s ≤ (s.image Prod.fst).card * (s.image Prod.snd).card := by
  rw [area, ← Finset.card_product]
  apply Finset.card_le_card
  intro c hc
  rw [Finset.mem_product]
  exact ⟨Finset.mem_image_of_mem _ hc, Finset.mem_image_of_mem _ hc⟩

/-- C5: the Polsby-Popper score `4π·Area/Perimeter²` of every non-empty cell
set lies in the half-open interval `(0, 1]`. -/
theorem C5_polsbyPopper_unit (s : Finset (ℤ × ℤ)) (hs : s.Nonempty) :
    0 < polsbyPopper s ∧ polsbyPopper s ≤ 1 := by
  have hR : 1 ≤ (s.image Prod.fst).card := Finset.card_pos.mpr (hs.image _)
  have hC : 1 ≤ (s.image Prod.snd).card := Finset.card_pos.mpr (hs.image _)
  have hA : area s ≤ (s.image Prod.fst).card * (s.image Prod.snd).card :=
    area_le_rows_mul_cols s
  have hP : 2 * (s.image Prod.fst).card + 2 * (s.image Prod.snd).card ≤ perim s :=
    perim_ge_rows_cols s
  have hA1 : 1 ≤ area s := Finset.card_pos.mpr hs
  have hA' : (area s : ℝ) ≤ ((s.image Prod.fst).card : ℝ) * ((s.image Prod.snd).card : ℝ) := by
    exact_mod_cast hA
  have hP' : 2 * ((s.image Prod.fst).card : ℝ) + 2 * ((s.image Prod.snd).card : ℝ) ≤ (perim s : ℝ) := by
    exact_mod_cast hP
  have hR' : (1 : ℝ) ≤ ((s.image Prod.fst).card : ℝ) := by exact_mod_cast hR
  have hC' : (1 : ℝ) ≤ ((s.image Prod.snd).card : ℝ) := by exact_mod_cast hC
  have hA0 : (0 : ℝ) < (area s : ℝ) := by exact_mod_cast hA1
  have hsq : (2 * ((s.image Prod.fst).card : ℝ) + 2 * ((s.image Prod.snd).card : ℝ)) ^ 2 ≤ (perim s : ℝ) ^ 2 := by
    apply pow_le_pow_left₀ (by positivity) hP'
  have h16 : 16 * (area s : ℝ) ≤ (perim s : ℝ) ^ 2 := by
    nlinarith [sq_nonneg (((s.image Prod.fst).card : ℝ) - ((s.image Prod.snd).card : ℝ))]
  have hPpos : (0 : ℝ) < (perim s : ℝ) ^ 2 := by nlinarith
  constructor
  · rw [polsbyPopper]
    apply div_pos _ hPpos
    have := Real.pi_pos
    nlinarith
  · rw [polsbyPopper, div_le_one hPpos]
    nlinarith [Real.pi_le_four, hA0.le, h16]

/-- C5 witness: the singleton cell set at the origin. -/
theorem C5_polsbyPopper_unit_witness :
    0 < polsbyPopper {((0 : ℤ), (0 : ℤ))} ∧ polsbyPopper {((0 : ℤ), (0 : ℤ))} ≤ 1 :=
  C5_polsbyPopper_unit {((0 : ℤ), (0 : ℤ))} ⟨((0 : ℤ), (0 : ℤ)), by decide⟩
